import Mathlib

/-!
Verification of the GymSight session controller and camera feed.

The session controller (the `Home` component) owns the session state:
selected exercise, analyzing/loading flags, last feedback, last error,
camera on/ready flags, permission state, the interval-timer handle and
the `isAnalyzingRef` liveness flag.  Its transition functions
(`stopAnalysis`, `handleCameraReady`, `handleCameraToggle`,
`startAnalysis` and the poll cycle `performAnalysis`) are embedded below
as pure state transformers; React state setters are modelled as
immediate field updates, and the results of the two asynchronous calls
(`captureFrame`, `analyzeExerciseForm`) are passed in as parameters.
Environment interval timers are modelled explicitly as a list of live
timer handles together with the component ref `analysisIntervalRef`, so
that "at most one timer" is a provable invariant rather than a typing
artefact.

The camera feed component (`CameraFeed`) is embedded separately:
media streams carry explicit track lists, and live tracks are tracked
in the state so that "releasing stops every track" is observable.
-/

/-- Models `hasCameraPermission : boolean | null` of the controller:
`null ↦ unknown`, `true ↦ granted`, `false ↦ denied`. -/
inductive Permission where
  | unknown
  | granted
  | denied
deriving DecidableEq, Repr

/-- Models `AnalyzeExerciseFormOutput`: `{ formCorrect: boolean, feedback: string }`. -/
structure Verdict where
  formCorrect : Bool
  feedback : String
deriving DecidableEq, Repr

/-- Result of the remote `analyzeExerciseForm` call: a verdict, or a rejection
carrying the error message. -/
inductive InferResult where
  | ok (v : Verdict)
  | err (msg : String)
deriving DecidableEq, Repr

/-- An environment interval timer created by `setInterval`: its id and its period
in milliseconds. -/
structure TimerHandle where
  id : Nat
  period : Nat
deriving DecidableEq, Repr

/-- The session state owned by the `Home` component, together with the
environment timer table.  `selectedExercise = ""` is the initial
"no exercise selected" value of the `useState<string>('')` hook;
`analyzingRef` is `isAnalyzingRef.current`; `intervalRef` is
`analysisIntervalRef.current` (the id of the installed interval, if any);
`timers` is the set of live environment intervals; `cameraFeedAttached`
models `cameraFeedRef.current !== null`. -/
structure SessionState where
  selectedExercise : String
  analyzing : Bool
  loading : Bool
  feedback : Option Verdict
  error : Option String
  cameraReady : Bool
  cameraOn : Bool
  permission : Permission
  analyzingRef : Bool
  intervalRef : Option Nat
  timers : List TimerHandle
  nextTimerId : Nat
  cameraFeedAttached : Bool
deriving DecidableEq, Repr

/-- Constant `ANALYSIS_INTERVAL` is 5000 ms (analyze every 5 seconds). -/
def ANALYSIS_INTERVAL : Nat := 5000

/-- Default message of `handleCameraReady` when permission is denied. -/
def deniedDefaultMsg : String :=
  "Camera permission denied. Please allow camera access in browser settings."

/-- Default message of `handleCameraReady` when the camera is not available. -/
def notAvailableMsg : String :=
  "Camera not available. Check hardware or other apps using it."

/-- Message of the poll cycle when the camera became unavailable mid-analysis. -/
def unavailableMsg : String :=
  "Camera became unavailable, permission was lost, or it was turned off during analysis."

/-- Models the source pattern of clearing the interval: if the ref holds an
interval id, the interval is removed from the environment and the ref is
nulled. -/
def clearIntervalRef (s : SessionState) : SessionState :=
  match s.intervalRef with
  | none => s
  | some i => { s with timers := s.timers.filter (fun t => t.id ≠ i), intervalRef := none }

/-- Models `setInterval(performAnalysis, p)` stored into the ref: installs a
fresh environment interval with period `p` and records its id. -/
def startTimer (p : Nat) (s : SessionState) : SessionState :=
  { s with timers := ⟨s.nextTimerId, p⟩ :: s.timers,
           intervalRef := some s.nextTimerId,
           nextTimerId := s.nextTimerId + 1 }

/-- Source `stopAnalysis`: clears the interval if one exists, then
`setIsAnalyzing(false); setIsLoading(false); isAnalyzingRef.current = false`. -/
def stopAnalysis (s : SessionState) : SessionState :=
  let s1 := clearIntervalRef s
  { s1 with analyzing := false, loading := false, analyzingRef := false }

/-- Source `handleCameraReady(ready, permissionGranted, cameraError)`: updates
`isCameraReady` and `hasCameraPermission`; on `!ready || permissionGranted === false`
sets the error and, if the camera was on, turns it off and stops analysis; on
`ready && permissionGranted === true` clears the error. -/
def handleCameraReady (ready : Bool) (perm : Permission) (camErr : Option String)
    (s : SessionState) : SessionState :=
  let s1 := { s with cameraReady := ready, permission := perm }
  if ¬ready ∨ perm = .denied then
    let msg := camErr.getD (if perm = .denied then deniedDefaultMsg else notAvailableMsg)
    let s2 := { s1 with error := some msg }
    if s2.cameraOn then stopAnalysis { s2 with cameraOn := false } else s2
  else if ready ∧ perm = .granted then
    { s1 with error := none }
  else
    s1

/-- Source `handleCameraToggle`: flips `isCameraOn`; turning off calls `stopAnalysis`;
turning on clears the error unless permission is known-denied. -/
def handleCameraToggle (s : SessionState) : SessionState :=
  let turningOn := !s.cameraOn
  let s1 := { s with cameraOn := turningOn }
  if ¬turningOn then
    stopAnalysis s1
  else if s.permission ≠ .denied then
    { s1 with error := none }
  else
    s1

/-- The `onValueChange` handler of the exercise selector: stores the value,
clears feedback, and stops analysis if it was running. -/
def selectExercise (v : String) (s : SessionState) : SessionState :=
  let s1 := { s with selectedExercise := v, feedback := none }
  if s1.analyzing then stopAnalysis s1 else s1

/-- The tail of `performAnalysis` after the `await analyzeExerciseForm(...)`
resumes: `s` is the session state at resumption time, `res` the settled
result.  On success, state is updated only if `isAnalyzingRef.current`; on
rejection, the error is set, feedback cleared and analysis stopped — again
only if `isAnalyzingRef.current`. -/
def performAnalysisResume (res : InferResult) (s : SessionState) : SessionState :=
  match res with
  | .ok v =>
      if s.analyzingRef then { s with feedback := some v, error := none } else s
  | .err msg =>
      if s.analyzingRef then
        stopAnalysis { s with error := some ("AI Error: " ++ msg), feedback := none }
      else s

/-- One poll cycle (`performAnalysis`): if the liveness ref is false, only
clears a leftover interval; if the camera re-validation fails, sets the error
and stops analysis; otherwise captures a frame (`cap` is the settled result of
`captureFrame()`): `none` skips the cycle, a frame is sent to inference whose
settled result `inf` is applied by `performAnalysisResume`. -/
def performAnalysis (cap : Option String) (inf : InferResult)
    (s : SessionState) : SessionState :=
  if ¬s.analyzingRef then
    clearIntervalRef s
  else if ¬s.cameraFeedAttached ∨ ¬s.cameraOn ∨ ¬s.cameraReady ∨ s.permission ≠ .granted then
    stopAnalysis { s with error := some (s.error.getD unavailableMsg) }
  else
    match cap with
    | none => s
    | some _ => performAnalysisResume inf s

/-- The body of `startAnalysis` after the guards all pass: clears feedback,
sets loading/analyzing and the liveness ref, clears any prior interval, sets
the three flags again (source lines repeat them after the clear), awaits one
poll cycle, and afterwards installs the `ANALYSIS_INTERVAL` interval and
clears loading if the ref is still set, else just clears loading. -/
def startAnalysisRun (cap : Option String) (inf : InferResult)
    (s0 : SessionState) : SessionState :=
  let s1 := { s0 with feedback := none, loading := true, analyzing := true,
                      analyzingRef := true }
  let s2 := clearIntervalRef s1
  let s3 := { s2 with analyzing := true, loading := true, analyzingRef := true }
  let s4 := performAnalysis cap inf s3
  if s4.analyzingRef then
    startTimer ANALYSIS_INTERVAL { s4 with loading := false }
  else
    { s4 with loading := false }

/-- Source `startAnalysis`: clears the error, then checks the guards in source order
(exercise selected, camera on, permission granted, camera ready, camera
component attached), each failure returning after only a toast; on success
runs `startAnalysisRun`. -/
def startAnalysis (cap : Option String) (inf : InferResult)
    (s : SessionState) : SessionState :=
  let s0 := { s with error := none }
  if s0.selectedExercise = "" then s0
  else if ¬s0.cameraOn then s0
  else if s0.permission ≠ .granted then s0
  else if ¬s0.cameraReady then s0
  else if ¬s0.cameraFeedAttached then s0
  else startAnalysisRun cap inf s0

/-- User- and environment-level events driving the session controller.
`feedSet` models React attaching/detaching `cameraFeedRef`; `tick` is a firing
of the installed interval; `start` is a click of the Start button, with the
settled results of the first cycle's capture and inference passed in. -/
inductive Event where
  | feedSet (b : Bool)
  | toggleCamera
  | cameraReport (ready : Bool) (perm : Permission) (err : Option String)
  | selectEx (v : String)
  | stop
  | start (cap : Option String) (inf : InferResult)
  | tick (cap : Option String) (inf : InferResult)
deriving DecidableEq, Repr

/-- Applies one event to the session state. -/
def applyEvent : Event → SessionState → SessionState
  | .feedSet b, s => { s with cameraFeedAttached := b }
  | .toggleCamera, s => handleCameraToggle s
  | .cameraReport r p e, s => handleCameraReady r p e s
  | .selectEx v, s => selectExercise v s
  | .stop, s => stopAnalysis s
  | .start cap inf, s => startAnalysis cap inf s
  | .tick cap inf, s => performAnalysis cap inf s

/-- The initial render state of the `Home` component. -/
def initState : SessionState :=
  { selectedExercise := ""
    analyzing := false
    loading := false
    feedback := none
    error := none
    cameraReady := false
    cameraOn := false
    permission := .unknown
    analyzingRef := false
    intervalRef := none
    timers := []
    nextTimerId := 0
    cameraFeedAttached := false }

/-- Session states reachable from the initial render by event sequences. -/
inductive Reachable : SessionState → Prop
  | refl : Reachable initState
  | next (e : Event) {s : SessionState} : Reachable s → Reachable (applyEvent e s)

/-- Applies a list of events left to right. -/
def applyEvents (es : List Event) (s : SessionState) : SessionState :=
  es.foldl (fun t e => applyEvent e t) s

/-- Models the `permissionState` of the `CameraFeed` component:
`'prompt' | 'granted' | 'denied' | 'unknown'`. -/
inductive CamPerm where
  | prompt
  | granted
  | denied
  | unknown
deriving DecidableEq, Repr

/-- A media stream returned by `getUserMedia`: an identity and the ids of its
tracks (the request `{video: ..., audio: false}` yields a single video track). -/
structure MediaStream where
  id : Nat
  tracks : List Nat
deriving DecidableEq, Repr

/-- State of the `CameraFeed` component together with the environment:
`streamRef` is `streamRef.current`; `liveTracks` are the environment track ids
not yet stopped by `track.stop()`; `videoSrc` models
`videoRef.current.srcObject !== null`; `isActive` is the `isActive` prop. -/
structure CamState where
  streamRef : Option MediaStream
  liveTracks : List Nat
  nextStreamId : Nat
  permissionState : CamPerm
  internalError : Option String
  videoSrc : Bool
  isActive : Bool
deriving DecidableEq, Repr

/-- Message of `startCamera` when the permission query reports denied. -/
def camDeniedMsg : String :=
  "Camera permission denied. Please allow camera access in browser settings."

/-- Message of the permission-change listener on revocation. -/
def revokedMsg : String := "Camera permission was revoked."

/-- Message when video playback cannot start. -/
def playFailMsg : String := "Could not start camera video playback."

/-- Message when the video element is not available. -/
def videoElMsg : String := "Video element not available."

/-- Models `track.stop()`: the track is no longer live in the environment. -/
def trackStop (t : Nat) (c : CamState) : CamState :=
  { c with liveTracks := c.liveTracks.filter (fun u => u ≠ t) }

/-- Source `stopCamera`: if a stream is held, stops every one of its tracks, nulls
`streamRef` and detaches the video element's `srcObject`; idempotent. -/
def stopCamera (c : CamState) : CamState :=
  match c.streamRef with
  | none => c
  | some st =>
      let c1 := st.tracks.foldl (fun acc t => trackStop t acc) c
      { c1 with streamRef := none, videoSrc := false }

/-- The permission-query prologue of `startCamera`: `permQ` is the settled
result of `navigator.permissions.query` (`none` when the API is unsupported or
the query failed, in which case the state falls back to `'unknown'`). -/
def permPhase (permQ : Option CamPerm) (c : CamState) : CamState :=
  match permQ with
  | some ps => { c with permissionState := ps }
  | none => { c with permissionState := .unknown }

/-- Settled outcome of the `getUserMedia` attempt: success (with whether the
video element was attached and whether playback started), or rejection (with
whether it was a permission denial, and the derived message). -/
inductive GumResult where
  | ok (videoAttached : Bool) (playOk : Bool)
  | err (denied : Bool) (msg : String)
deriving DecidableEq, Repr

/-- The `getUserMedia` phase of `startCamera`: on success a fresh one-track
stream is acquired, stored in the ref and attached to the video element;
playback or attachment failure stops the camera again; on rejection only the
error and (for denials) the permission state change. -/
def gumPhase (gum : GumResult) (c : CamState) : CamState :=
  match gum with
  | .ok videoAttached playOk =>
      let st : MediaStream := ⟨c.nextStreamId, [c.nextStreamId]⟩
      let c1 := { c with streamRef := some st,
                         liveTracks := c.nextStreamId :: c.liveTracks,
                         nextStreamId := c.nextStreamId + 1,
                         permissionState := .granted,
                         internalError := none }
      if videoAttached then
        if playOk then { c1 with videoSrc := true }
        else stopCamera { c1 with videoSrc := true, internalError := some playFailMsg }
      else stopCamera { c1 with internalError := some videoElMsg }
  | .err denied msg =>
      { c with internalError := some msg,
               permissionState := if denied then .denied else c.permissionState }

/-- Source `startCamera`: clears the internal error, runs the permission query; a
denied query reports and returns without touching the stream; otherwise any
held stream is first released by `stopCamera` and only then is `getUserMedia`
attempted. -/
def startCamera (permQ : Option CamPerm) (gum : GumResult) (c : CamState) : CamState :=
  let c0 := { c with internalError := none }
  let c1 := permPhase permQ c0
  if c1.permissionState = .denied then
    { c1 with internalError := some camDeniedMsg }
  else
    gumPhase gum (stopCamera c1)

/-- Camera lifecycle events: activation (the effect runs `startCamera`, with
the settled permission query and `getUserMedia` outcomes), deactivation (the
effect runs `stopCamera`), and a permission revocation delivered by the
`status.onchange` listener. -/
inductive CamEvent where
  | activate (permQ : Option CamPerm) (gum : GumResult)
  | deactivate
  | permRevoke
deriving DecidableEq, Repr

/-- Applies one camera lifecycle event. -/
def camApply : CamEvent → CamState → CamState
  | .activate permQ gum, c => startCamera permQ gum { c with isActive := true }
  | .deactivate, c => stopCamera { c with isActive := false }
  | .permRevoke, c =>
      let c1 := { c with permissionState := .denied }
      match c1.streamRef with
      | some _ => { (stopCamera c1) with internalError := some revokedMsg }
      | none => c1

/-- Initial state of the `CameraFeed` component. -/
def camInit : CamState :=
  { streamRef := none
    liveTracks := []
    nextStreamId := 0
    permissionState := .unknown
    internalError := none
    videoSrc := false
    isActive := false }

/-- Camera states reachable from mount by lifecycle event sequences. -/
inductive CamReachable : CamState → Prop
  | refl : CamReachable camInit
  | next (e : CamEvent) {c : CamState} : CamReachable c → CamReachable (camApply e c)

/-- Source `captureFrame`: `videoWidth` and `canvasAttached` describe the video/canvas
elements, `ctxOk` whether `getContext` returns a context, `drawOk` whether the
draw/encode succeeds, `encoded` the data URI produced on success.  Returns
`none` on every failure path, mirroring the early returns and the
`try/catch` of the source. -/
def captureFrame (c : CamState) (videoWidth : Nat)
    (canvasAttached ctxOk drawOk : Bool) (encoded : String) : Option String :=
  if ¬c.videoSrc ∨ videoWidth = 0 ∨ ¬canvasAttached ∨ c.streamRef = none ∨ ¬c.isActive then
    none
  else if c.permissionState ≠ .granted then
    none
  else if ¬ctxOk then
    none
  else if ¬drawOk then
    none
  else
    some encoded

/-- The interval ref matches the environment timer table: no ref means no live
timer, a ref means exactly the one 5000 ms interval it points to is live. -/
def refMatch (s : SessionState) : Prop :=
  (s.intervalRef = none → s.timers = []) ∧
    ∀ i, s.intervalRef = some i → s.timers = [⟨i, ANALYSIS_INTERVAL⟩]

/-- The controller invariant: the ref matches the timer table, the liveness
ref mirrors `analyzing`, a live interval implies `analyzing`, and `analyzing`
implies the camera is on. -/
def SessInv (s : SessionState) : Prop :=
  refMatch s ∧ s.analyzingRef = s.analyzing ∧
    (s.intervalRef ≠ none → s.analyzing = true) ∧
    (s.analyzing = true → s.cameraOn = true)

/-- The camera-feed invariant: no held stream means no live track; a held
stream is a one-track stream whose track is exactly the live one. -/
def CamInv (c : CamState) : Prop :=
  (c.streamRef = none → c.liveTracks = []) ∧
    ∀ st, c.streamRef = some st → st.tracks = [st.id] ∧ c.liveTracks = [st.id]

/-- Modelled from the spec wording of `startAnalysis` on a successful guard
check: clears feedback and error, sets loading and analyzing (and the liveness
ref tracking them), runs one awaited poll cycle, then — only if still
analyzing after that cycle — installs the recurring 5000 ms timer and clears
loading. -/
def startAnalysisSpec (cap : Option String) (inf : InferResult)
    (s : SessionState) : SessionState :=
  let setup := { s with feedback := none, error := none, loading := true,
                        analyzing := true, analyzingRef := true }
  let mid := performAnalysis cap inf setup
  if mid.analyzingRef then
    startTimer ANALYSIS_INTERVAL { mid with loading := false }
  else
    mid

/-- The demo verdict used in witness runs. -/
def demoVerdict : Verdict := ⟨false, "Bend knees more"⟩

/-- A demo event sequence: attach the camera component, turn the camera on,
receive a ready report with granted permission, select Squat, and start
analysis with a first cycle that captures a frame and gets a verdict. -/
def demoEvents : List Event :=
  [.feedSet true, .toggleCamera, .cameraReport true .granted none,
   .selectEx "Squat", .start (some "frame") (.ok demoVerdict)]

/-- The session state after `demoEvents`: analysis is live with the interval
installed. -/
def demoState : SessionState := applyEvents demoEvents initState

/-- A session state mid-analysis, used to instantiate poll-cycle theorems:
liveness ref set, camera attached/on/ready with granted permission. -/
def liveState : SessionState :=
  { initState with analyzing := true, analyzingRef := true,
                   cameraFeedAttached := true, cameraOn := true,
                   cameraReady := true, permission := .granted }

/-- A ready-to-start session state: exercise selected, camera on and ready,
permission granted, nothing running. -/
def readyState : SessionState :=
  { initState with selectedExercise := "Squat", cameraFeedAttached := true,
                   cameraOn := true, cameraReady := true, permission := .granted }

/-- A session state with a stale error and no exercise selected, on which the
`startAnalysis` guard fails. -/
def staleErrorState : SessionState :=
  { initState with error := some "previous error" }

/-- The camera state after activating with granted permission and a successful
`getUserMedia`: one stream held, its track live. -/
def demoCamState : CamState :=
  camApply (.activate (some .granted) (.ok true true)) camInit

theorem reachable_applyEvents (es : List Event) {s : SessionState}
    (h : Reachable s) : Reachable (applyEvents es s) := by
  induction es generalizing s with
  | nil => exact h
  | cons e es ih => exact ih (Reachable.next e h)

@[simp] theorem clearIntervalRef_intervalRef (s : SessionState) :
    (clearIntervalRef s).intervalRef = none := by
  unfold clearIntervalRef; split <;> simp_all

@[simp] theorem clearIntervalRef_analyzing (s : SessionState) :
    (clearIntervalRef s).analyzing = s.analyzing := by
  unfold clearIntervalRef; split <;> rfl

@[simp] theorem clearIntervalRef_analyzingRef (s : SessionState) :
    (clearIntervalRef s).analyzingRef = s.analyzingRef := by
  unfold clearIntervalRef; split <;> rfl

@[simp] theorem clearIntervalRef_loading (s : SessionState) :
    (clearIntervalRef s).loading = s.loading := by
  unfold clearIntervalRef; split <;> rfl

@[simp] theorem clearIntervalRef_feedback (s : SessionState) :
    (clearIntervalRef s).feedback = s.feedback := by
  unfold clearIntervalRef; split <;> rfl

@[simp] theorem clearIntervalRef_error (s : SessionState) :
    (clearIntervalRef s).error = s.error := by
  unfold clearIntervalRef; split <;> rfl

@[simp] theorem clearIntervalRef_cameraOn (s : SessionState) :
    (clearIntervalRef s).cameraOn = s.cameraOn := by
  unfold clearIntervalRef; split <;> rfl

@[simp] theorem clearIntervalRef_cameraReady (s : SessionState) :
    (clearIntervalRef s).cameraReady = s.cameraReady := by
  unfold clearIntervalRef; split <;> rfl

@[simp] theorem clearIntervalRef_permission (s : SessionState) :
    (clearIntervalRef s).permission = s.permission := by
  unfold clearIntervalRef; split <;> rfl

@[simp] theorem clearIntervalRef_selectedExercise (s : SessionState) :
    (clearIntervalRef s).selectedExercise = s.selectedExercise := by
  unfold clearIntervalRef; split <;> rfl

@[simp] theorem clearIntervalRef_cameraFeedAttached (s : SessionState) :
    (clearIntervalRef s).cameraFeedAttached = s.cameraFeedAttached := by
  unfold clearIntervalRef; split <;> rfl

@[simp] theorem clearIntervalRef_nextTimerId (s : SessionState) :
    (clearIntervalRef s).nextTimerId = s.nextTimerId := by
  unfold clearIntervalRef; split <;> rfl

@[simp] theorem stopAnalysis_feedback (s : SessionState) :
    (stopAnalysis s).feedback = s.feedback := by
  simp [stopAnalysis]

@[simp] theorem stopAnalysis_error (s : SessionState) :
    (stopAnalysis s).error = s.error := by
  simp [stopAnalysis]

@[simp] theorem stopAnalysis_selectedExercise (s : SessionState) :
    (stopAnalysis s).selectedExercise = s.selectedExercise := by
  simp [stopAnalysis]

@[simp] theorem stopAnalysis_cameraOn (s : SessionState) :
    (stopAnalysis s).cameraOn = s.cameraOn := by
  simp [stopAnalysis]

@[simp] theorem stopAnalysis_cameraReady (s : SessionState) :
    (stopAnalysis s).cameraReady = s.cameraReady := by
  simp [stopAnalysis]

@[simp] theorem stopAnalysis_permission (s : SessionState) :
    (stopAnalysis s).permission = s.permission := by
  simp [stopAnalysis]

@[simp] theorem stopAnalysis_cameraFeedAttached (s : SessionState) :
    (stopAnalysis s).cameraFeedAttached = s.cameraFeedAttached := by
  simp [stopAnalysis]

@[simp] theorem stopAnalysis_analyzing (s : SessionState) :
    (stopAnalysis s).analyzing = false := rfl

@[simp] theorem stopAnalysis_loading (s : SessionState) :
    (stopAnalysis s).loading = false := rfl

@[simp] theorem stopAnalysis_analyzingRef (s : SessionState) :
    (stopAnalysis s).analyzingRef = false := rfl

@[simp] theorem stopAnalysis_intervalRef (s : SessionState) :
    (stopAnalysis s).intervalRef = none := by
  simp [stopAnalysis]

theorem refMatch_clear {s : SessionState} (h : refMatch s) :
    (clearIntervalRef s).timers = [] := by
  unfold clearIntervalRef
  split
  · exact h.1 (by assumption)
  · rename_i i heq
    simp [h.2 i heq, List.filter]

theorem stopAnalysis_timers {s : SessionState} (h : refMatch s) :
    (stopAnalysis s).timers = [] := by
  simpa [stopAnalysis] using refMatch_clear h

theorem sessInv_stopAnalysis {s : SessionState} (h : refMatch s) :
    SessInv (stopAnalysis s) := by
  refine ⟨?_, by simp, by simp, by simp⟩
  unfold refMatch
  simp [stopAnalysis_timers h]

@[simp] theorem resume_cameraOn (res : InferResult) (s : SessionState) :
    (performAnalysisResume res s).cameraOn = s.cameraOn := by
  cases res <;> simp only [performAnalysisResume] <;> split <;> simp

@[simp] theorem resume_cameraReady (res : InferResult) (s : SessionState) :
    (performAnalysisResume res s).cameraReady = s.cameraReady := by
  cases res <;> simp only [performAnalysisResume] <;> split <;> simp

@[simp] theorem resume_permission (res : InferResult) (s : SessionState) :
    (performAnalysisResume res s).permission = s.permission := by
  cases res <;> simp only [performAnalysisResume] <;> split <;> simp

@[simp] theorem resume_selectedExercise (res : InferResult) (s : SessionState) :
    (performAnalysisResume res s).selectedExercise = s.selectedExercise := by
  cases res <;> simp only [performAnalysisResume] <;> split <;> simp

theorem sessInv_resume {s : SessionState} (h : SessInv s) (res : InferResult) :
    SessInv (performAnalysisResume res s) := by
  obtain ⟨hrm, hra, hia, hac⟩ := h
  cases res with
  | ok v =>
      simp only [performAnalysisResume]
      split
      · exact ⟨hrm, hra, hia, hac⟩
      · exact ⟨hrm, hra, hia, hac⟩
  | err m =>
      simp only [performAnalysisResume]
      split
      · exact sessInv_stopAnalysis hrm
      · exact ⟨hrm, hra, hia, hac⟩

theorem resume_notimer {s : SessionState} (h1 : s.intervalRef = none)
    (h2 : s.timers = []) (res : InferResult) :
    (performAnalysisResume res s).intervalRef = none ∧
      (performAnalysisResume res s).timers = [] := by
  have hrm : refMatch s := ⟨fun _ => h2, fun i hi => by rw [h1] at hi; cases hi⟩
  cases res with
  | ok v =>
      simp only [performAnalysisResume]
      split
      · exact ⟨h1, h2⟩
      · exact ⟨h1, h2⟩
  | err m =>
      simp only [performAnalysisResume]
      split
      · exact ⟨by simp, stopAnalysis_timers hrm⟩
      · exact ⟨h1, h2⟩

@[simp] theorem perform_cameraOn (cap : Option String) (inf : InferResult)
    (s : SessionState) : (performAnalysis cap inf s).cameraOn = s.cameraOn := by
  simp only [performAnalysis]
  split
  · simp
  · split
    · simp
    · split <;> simp

@[simp] theorem perform_cameraReady (cap : Option String) (inf : InferResult)
    (s : SessionState) : (performAnalysis cap inf s).cameraReady = s.cameraReady := by
  simp only [performAnalysis]
  split
  · simp
  · split
    · simp
    · split <;> simp

@[simp] theorem perform_permission (cap : Option String) (inf : InferResult)
    (s : SessionState) : (performAnalysis cap inf s).permission = s.permission := by
  simp only [performAnalysis]
  split
  · simp
  · split
    · simp
    · split <;> simp

@[simp] theorem perform_selectedExercise (cap : Option String) (inf : InferResult)
    (s : SessionState) :
    (performAnalysis cap inf s).selectedExercise = s.selectedExercise := by
  simp only [performAnalysis]
  split
  · simp
  · split
    · simp
    · split <;> simp

theorem sessInv_perform {s : SessionState} (h : SessInv s)
    (cap : Option String) (inf : InferResult) :
    SessInv (performAnalysis cap inf s) := by
  obtain ⟨hrm, hra, hia, hac⟩ := h
  simp only [performAnalysis]
  split
  · refine ⟨⟨fun _ => refMatch_clear hrm, fun i hi => by simp at hi⟩, ?_, ?_, ?_⟩
    · simp [hra]
    · simp
    · simpa using hac
  · split
    · exact sessInv_stopAnalysis hrm
    · split
      · exact ⟨hrm, hra, hia, hac⟩
      · exact sessInv_resume ⟨hrm, hra, hia, hac⟩ inf

theorem perform_notimer {s : SessionState} (h1 : s.intervalRef = none)
    (h2 : s.timers = []) (cap : Option String) (inf : InferResult) :
    (performAnalysis cap inf s).intervalRef = none ∧
      (performAnalysis cap inf s).timers = [] := by
  have hrm : refMatch s := ⟨fun _ => h2, fun i hi => by rw [h1] at hi; cases hi⟩
  simp only [performAnalysis]
  split
  · simp only [clearIntervalRef, h1]
    exact ⟨trivial, h2⟩
  · split
    · exact ⟨by simp, stopAnalysis_timers hrm⟩
    · split
      · exact ⟨h1, h2⟩
      · exact resume_notimer h1 h2 inf

theorem sessInv_startTimer {x : SessionState} (h : SessInv x) (hx : x.timers = [])
    (hrf : x.analyzingRef = true) : SessInv (startTimer ANALYSIS_INTERVAL x) := by
  obtain ⟨_, hra, hia, hac⟩ := h
  refine ⟨⟨fun hi => ?_, fun i hi => ?_⟩, ?_, ?_, ?_⟩
  · simp [startTimer] at hi
  · simp only [startTimer] at hi ⊢
    simp at hi
    simp [hx, hi]
  · exact hra
  · intro _
    show x.analyzing = true
    rw [← hra]; exact hrf
  · intro _
    show x.cameraOn = true
    exact hac (by rw [← hra]; exact hrf)

theorem sessInv_prep {t : SessionState} (hrm : refMatch t) (hco : t.cameraOn = true) :
    SessInv { (clearIntervalRef t) with
              analyzing := true
              loading := true
              analyzingRef := true } := by
  refine ⟨⟨fun _ => refMatch_clear hrm, fun i hi => ?_⟩, rfl, fun _ => rfl, fun _ => ?_⟩
  · rw [show ({ (clearIntervalRef t) with
                analyzing := true
                loading := true
                analyzingRef := true } : SessionState).intervalRef
        = (clearIntervalRef t).intervalRef from rfl, clearIntervalRef_intervalRef] at hi
    cases hi
  · show (clearIntervalRef t).cameraOn = true
    rw [clearIntervalRef_cameraOn]
    exact hco

theorem sessInv_startRun (cap : Option String) (inf : InferResult)
    {s0 : SessionState} (hrm : refMatch s0) (hco : s0.cameraOn = true) :
    SessInv (startAnalysisRun cap inf s0) := by
  have hrm1 : refMatch { s0 with
                         feedback := none
                         loading := true
                         analyzing := true
                         analyzingRef := true } := hrm
  have hco1 : ({ s0 with
                 feedback := none
                 loading := true
                 analyzing := true
                 analyzingRef := true } : SessionState).cameraOn = true := hco
  have h3 := sessInv_prep hrm1 hco1
  have h1 : ({ (clearIntervalRef { s0 with
                                   feedback := none
                                   loading := true
                                   analyzing := true
                                   analyzingRef := true }) with
               analyzing := true
               loading := true
               analyzingRef := true } : SessionState).intervalRef = none :=
    clearIntervalRef_intervalRef _
  have h2 : ({ (clearIntervalRef { s0 with
                                   feedback := none
                                   loading := true
                                   analyzing := true
                                   analyzingRef := true }) with
               analyzing := true
               loading := true
               analyzingRef := true } : SessionState).timers = [] :=
    refMatch_clear hrm1
  have h4 := sessInv_perform h3 cap inf
  have hnt := perform_notimer h1 h2 cap inf
  simp only [startAnalysisRun]
  split
  · rename_i href
    exact sessInv_startTimer h4 hnt.2 href
  · exact h4

theorem sessInv_toggle {s : SessionState} (h : SessInv s) :
    SessInv (handleCameraToggle s) := by
  obtain ⟨hrm, hra, hia, hac⟩ := h
  simp only [handleCameraToggle]
  by_cases hc : s.cameraOn = true
  · simp only [hc]
    simp only [Bool.not_true, Bool.false_eq_true, not_false_eq_true, if_pos]
    exact sessInv_stopAnalysis hrm
  · have hc' : s.cameraOn = false := by revert hc; cases s.cameraOn <;> simp
    simp only [hc']
    simp only [Bool.not_false, Bool.true_eq_false]
    rw [if_neg (by simp)]
    split
    · exact ⟨hrm, hra, hia, fun _ => rfl⟩
    · exact ⟨hrm, hra, hia, fun _ => rfl⟩

theorem sessInv_cameraReport (ready : Bool) (perm : Permission) (camErr : Option String)
    {s : SessionState} (h : SessInv s) :
    SessInv (handleCameraReady ready perm camErr s) := by
  obtain ⟨hrm, hra, hia, hac⟩ := h
  simp only [handleCameraReady]
  split
  · split
    · exact sessInv_stopAnalysis hrm
    · rename_i hco
      refine ⟨hrm, hra, hia, fun ha => absurd (hac ha) ?_⟩
      exact hco
  · split
    · exact ⟨hrm, hra, hia, hac⟩
    · exact ⟨hrm, hra, hia, hac⟩

theorem sessInv_select (v : String) {s : SessionState} (h : SessInv s) :
    SessInv (selectExercise v s) := by
  obtain ⟨hrm, hra, hia, hac⟩ := h
  simp only [selectExercise]
  split
  · exact sessInv_stopAnalysis hrm
  · exact ⟨hrm, hra, hia, hac⟩

theorem sessInv_startAnalysis (cap : Option String) (inf : InferResult)
    {s : SessionState} (h : SessInv s) :
    SessInv (startAnalysis cap inf s) := by
  obtain ⟨hrm, hra, hia, hac⟩ := h
  simp only [startAnalysis]
  split
  · exact ⟨hrm, hra, hia, hac⟩
  · split
    · exact ⟨hrm, hra, hia, hac⟩
    · split
      · exact ⟨hrm, hra, hia, hac⟩
      · split
        · exact ⟨hrm, hra, hia, hac⟩
        · split
          · exact ⟨hrm, hra, hia, hac⟩
          · rename_i g1 g2 g3 g4 g5
            refine sessInv_startRun cap inf hrm ?_
            revert g2; cases s.cameraOn <;> simp

theorem sessInv_applyEvent (e : Event) {s : SessionState} (h : SessInv s) :
    SessInv (applyEvent e s) := by
  cases e with
  | feedSet b => exact ⟨h.1, h.2.1, h.2.2.1, h.2.2.2⟩
  | toggleCamera => exact sessInv_toggle h
  | cameraReport r p e0 => exact sessInv_cameraReport r p e0 h
  | selectEx v => exact sessInv_select v h
  | stop => exact sessInv_stopAnalysis h.1
  | start cap inf => exact sessInv_startAnalysis cap inf h
  | tick cap inf => exact sessInv_perform h cap inf

theorem sessInv_init : SessInv initState := by
  refine ⟨⟨fun _ => rfl, fun i hi => by cases hi⟩, rfl, fun hi => absurd rfl hi, fun ha => by cases ha⟩

theorem reachable_sessInv {s : SessionState} (h : Reachable s) : SessInv s := by
  induction h with
  | refl => exact sessInv_init
  | next e _ ih => exact sessInv_applyEvent e ih

@[simp] theorem stopCamera_streamRef (c : CamState) :
    (stopCamera c).streamRef = none := by
  unfold stopCamera
  split <;> simp_all

theorem stopCamera_liveTracks {c : CamState} (h : CamInv c) :
    (stopCamera c).liveTracks = [] := by
  unfold stopCamera
  split
  · exact h.1 (by assumption)
  · rename_i st hst
    obtain ⟨ht, hl⟩ := h.2 st hst
    simp [ht, trackStop, hl, List.filter]

theorem camInv_stopCamera {c : CamState} (h : CamInv c) : CamInv (stopCamera c) :=
  ⟨fun _ => stopCamera_liveTracks h,
   fun st hst => by rw [stopCamera_streamRef] at hst; cases hst⟩

theorem camInv_of_parts {c : CamState} {st : MediaStream}
    (h : c.streamRef = some st) (ht : st.tracks = [st.id])
    (hl : c.liveTracks = [st.id]) : CamInv c := by
  refine ⟨fun hn => ?_, fun st2 hst2 => ?_⟩
  · rw [h] at hn
    cases hn
  · rw [h] at hst2
    obtain rfl := Option.some.inj hst2
    exact ⟨ht, hl⟩

theorem camInv_gum {c : CamState} (h0 : c.streamRef = none)
    (h1 : c.liveTracks = []) (gum : GumResult) : CamInv (gumPhase gum c) := by
  cases gum with
  | ok va po =>
      simp only [gumPhase]
      split
      · split
        · exact camInv_of_parts rfl rfl (by simp [h1])
        · exact camInv_stopCamera (camInv_of_parts rfl rfl (by simp [h1]))
      · exact camInv_stopCamera (camInv_of_parts rfl rfl (by simp [h1]))
  | err d m =>
      refine ⟨fun _ => h1, fun st hst => ?_⟩
      have hst2 : c.streamRef = some st := hst
      rw [h0] at hst2
      cases hst2

theorem camInv_startCamera {c : CamState} (h : CamInv c)
    (permQ : Option CamPerm) (gum : GumResult) :
    CamInv (startCamera permQ gum c) := by
  have h01 : CamInv (permPhase permQ { c with internalError := none }) := by
    cases permQ with
    | none => exact ⟨h.1, h.2⟩
    | some ps => exact ⟨h.1, h.2⟩
  simp only [startCamera]
  split
  · exact ⟨h01.1, h01.2⟩
  · exact camInv_gum (stopCamera_streamRef _) (stopCamera_liveTracks h01) gum

theorem camInv_camApply (e : CamEvent) {c : CamState} (h : CamInv c) :
    CamInv (camApply e c) := by
  cases e with
  | activate permQ gum =>
      simp only [camApply]
      exact camInv_startCamera
        (show CamInv { c with isActive := true } from ⟨h.1, h.2⟩) permQ gum
  | deactivate =>
      simp only [camApply]
      exact camInv_stopCamera
        (show CamInv { c with isActive := false } from ⟨h.1, h.2⟩)
  | permRevoke =>
      simp only [camApply]
      split
      · have h1 : CamInv { c with permissionState := CamPerm.denied } := ⟨h.1, h.2⟩
        refine ⟨fun _ => stopCamera_liveTracks h1, fun st hst => ?_⟩
        have hst2 : (stopCamera { c with permissionState := CamPerm.denied }).streamRef
            = some st := hst
        rw [stopCamera_streamRef] at hst2
        cases hst2
      · exact ⟨h.1, h.2⟩

theorem camInv_init : CamInv camInit :=
  ⟨fun _ => rfl, fun st hst => by cases hst⟩

theorem camReachable_camInv {c : CamState} (h : CamReachable c) : CamInv c := by
  induction h with
  | refl => exact camInv_init
  | next e _ ih => exact camInv_camApply e ih

theorem clearIntervalRef_of_none {s : SessionState} (h : s.intervalRef = none) :
    clearIntervalRef s = s := by
  unfold clearIntervalRef
  split
  · rfl
  · rename_i i hi
    rw [h] at hi
    cases hi

theorem loading_eta {s : SessionState} (h : s.loading = false) :
    { s with loading := false } = s := by
  cases s
  simp_all

theorem perform_ref_false_loading {s : SessionState} {cap : Option String}
    {inf : InferResult} (h : s.analyzingRef = true)
    (hmid : (performAnalysis cap inf s).analyzingRef = false) :
    (performAnalysis cap inf s).loading = false := by
  have hr : ¬(¬s.analyzingRef = true) := by simp [h]
  by_cases hg : ¬s.cameraFeedAttached = true ∨ ¬s.cameraOn = true ∨
      ¬s.cameraReady = true ∨ s.permission ≠ Permission.granted
  · simp only [performAnalysis]
    rw [if_neg hr, if_pos hg]
    simp
  · simp only [performAnalysis] at hmid ⊢
    rw [if_neg hr, if_neg hg] at hmid ⊢
    cases cap with
    | none =>
        change s.analyzingRef = false at hmid
        rw [h] at hmid
        simp at hmid
    | some f =>
        change (performAnalysisResume inf s).analyzingRef = false at hmid
        show (performAnalysisResume inf s).loading = false
        cases inf with
        | ok v =>
            simp only [performAnalysisResume, if_pos h] at hmid
            simp [h] at hmid
        | err m =>
            simp only [performAnalysisResume, if_pos h]
            simp

/-- C10: `stopAnalysis` modifies only the timer, `analyzing` and `loading`:
`feedback`, `error`, `selectedExercise`, `cameraOn`, `cameraReady` and
`permission` are unchanged for every session state, so the last displayed
verdict or error persists after analysis is stopped. -/
theorem stopAnalysis_preserves_display (s : SessionState) :
    (stopAnalysis s).feedback = s.feedback ∧
    (stopAnalysis s).error = s.error ∧
    (stopAnalysis s).selectedExercise = s.selectedExercise ∧
    (stopAnalysis s).cameraOn = s.cameraOn ∧
    (stopAnalysis s).cameraReady = s.cameraReady ∧
    (stopAnalysis s).permission = s.permission ∧
    (stopAnalysis s).analyzing = false ∧
    (stopAnalysis s).loading = false ∧
    (stopAnalysis s).intervalRef = none := by
  refine ⟨?_, ?_, ?_, ?_, ?_, ?_, rfl, rfl, ?_⟩ <;> simp

/-- C2: a stale inference result arriving after `stopAnalysis` — a verdict or
a rejection alike — is discarded: the resumption leaves the stopped state
exactly as it was, and in particular `feedback` and `error` keep the values
they had before the stop. -/
theorem stale_inference_discarded (s : SessionState) (res : InferResult) :
    performAnalysisResume res (stopAnalysis s) = stopAnalysis s ∧
    (performAnalysisResume res (stopAnalysis s)).feedback = s.feedback ∧
    (performAnalysisResume res (stopAnalysis s)).error = s.error := by
  have hres : performAnalysisResume res (stopAnalysis s) = stopAnalysis s := by
    cases res with
    | ok v =>
        simp only [performAnalysisResume]
        rw [if_neg (by simp)]
    | err m =>
        simp only [performAnalysisResume]
        rw [if_neg (by simp)]
  refine ⟨hres, ?_, ?_⟩ <;> rw [hres] <;> simp

/-- C5: a poll cycle whose frame capture returns `none` is skipped with no
state change: the cycle returns the session state exactly as it was. -/
theorem capture_none_skips_cycle (s : SessionState) (inf : InferResult)
    (h1 : s.analyzingRef = true) (h2 : s.cameraFeedAttached = true)
    (h3 : s.cameraOn = true) (h4 : s.cameraReady = true)
    (h5 : s.permission = Permission.granted) :
    performAnalysis none inf s = s := by
  simp only [performAnalysis]
  rw [if_neg (by simp [h1]), if_neg (by simp [h2, h3, h4, h5])]

/-- C5 witness: a concrete live mid-analysis state on which the cycle with a
`none` capture is the identity. -/
theorem capture_none_skips_cycle_witness :
    performAnalysis none (.ok demoVerdict) liveState = liveState :=
  capture_none_skips_cycle liveState (.ok demoVerdict) rfl rfl rfl rfl rfl

/-- C1 counterexample: `startAnalysis` invoked with no exercise selected (a
failing guard) on a state carrying a stale error does change the state — the
stale error is cleared — contradicting the claim that `error` is not
modified on a guard failure. -/
theorem startAnalysis_guardFail_clears_stale_error :
    staleErrorState.selectedExercise = "" ∧
    staleErrorState.error = some "previous error" ∧
    (startAnalysis none (.err "e") staleErrorState).error = none := by
  refine ⟨rfl, rfl, ?_⟩
  simp [startAnalysis, staleErrorState, initState]

/-- C1 (amended): when the `startAnalysis` guard fails — no exercise
selected, camera off, permission not granted, or camera not ready — the call
clears `error` (set to `none` at entry) and changes nothing else: `analyzing`
keeps its value, the timer is not started, and `feedback` is unmodified; only
a transient toast is produced. -/
theorem startAnalysis_guardFail_only_error_cleared (s : SessionState)
    (cap : Option String) (inf : InferResult)
    (h : s.selectedExercise = "" ∨ s.cameraOn = false ∨
         s.permission ≠ Permission.granted ∨ s.cameraReady = false) :
    startAnalysis cap inf s = { s with error := none } := by
  simp only [startAnalysis]
  by_cases g1 : s.selectedExercise = ""
  · rw [if_pos g1]
  · rw [if_neg g1]
    by_cases g2 : s.cameraOn = true
    · rw [if_neg (by simp [g2])]
      by_cases g3 : s.permission = Permission.granted
      · rw [if_neg (by simp [g3])]
        by_cases g4 : s.cameraReady = true
        · rcases h with h | h | h | h
          · exact absurd h g1
          · rw [g2] at h; cases h
          · exact absurd g3 h
          · rw [g4] at h; cases h
        · rw [if_pos (by simpa using g4)]
      · rw [if_pos g3]
    · rw [if_pos (by simpa using g2)]

/-- C1 witness: the amended claim evaluated on the concrete stale-error state
with no selected exercise. -/
theorem startAnalysis_guardFail_only_error_cleared_witness :
    startAnalysis none (.err "e") staleErrorState =
      { staleErrorState with error := none } :=
  startAnalysis_guardFail_only_error_cleared staleErrorState none (.err "e")
    (Or.inl rfl)

/-- C3: when the inference call of a poll cycle rejects while analysis is
still live, the controller sets the prefixed error, clears feedback, stops
analysis (analyzing and loading false), cancels the interval, and leaves the
camera fields untouched. -/
theorem inference_failure_stops_analysis (s : SessionState) (frame msg : String)
    (h1 : s.analyzingRef = true) (h2 : s.cameraFeedAttached = true)
    (h3 : s.cameraOn = true) (h4 : s.cameraReady = true)
    (h5 : s.permission = Permission.granted) (hrm : refMatch s) :
    (performAnalysis (some frame) (.err msg) s).error =
      some ("AI Error: " ++ msg) ∧
    (performAnalysis (some frame) (.err msg) s).feedback = none ∧
    (performAnalysis (some frame) (.err msg) s).analyzing = false ∧
    (performAnalysis (some frame) (.err msg) s).loading = false ∧
    (performAnalysis (some frame) (.err msg) s).intervalRef = none ∧
    (performAnalysis (some frame) (.err msg) s).timers = [] ∧
    (performAnalysis (some frame) (.err msg) s).cameraOn = s.cameraOn ∧
    (performAnalysis (some frame) (.err msg) s).cameraReady = s.cameraReady ∧
    (performAnalysis (some frame) (.err msg) s).permission = s.permission := by
  have hred : performAnalysis (some frame) (.err msg) s =
      stopAnalysis { s with error := some ("AI Error: " ++ msg), feedback := none } := by
    simp only [performAnalysis]
    rw [if_neg (by simp [h1]), if_neg (by simp [h2, h3, h4, h5])]
    simp only [performAnalysisResume, if_pos h1]
  rw [hred]
  refine ⟨by simp, by simp, rfl, rfl, by simp, stopAnalysis_timers hrm, by simp,
    by simp, by simp⟩

/-- C3 witness: the failure cycle evaluated on a concrete live state. -/
theorem inference_failure_stops_analysis_witness :
    (performAnalysis (some "f") (.err "boom") liveState).error =
      some ("AI Error: " ++ "boom") ∧
    (performAnalysis (some "f") (.err "boom") liveState).feedback = none ∧
    (performAnalysis (some "f") (.err "boom") liveState).analyzing = false ∧
    (performAnalysis (some "f") (.err "boom") liveState).loading = false ∧
    (performAnalysis (some "f") (.err "boom") liveState).intervalRef = none ∧
    (performAnalysis (some "f") (.err "boom") liveState).timers = [] ∧
    (performAnalysis (some "f") (.err "boom") liveState).cameraOn =
      liveState.cameraOn ∧
    (performAnalysis (some "f") (.err "boom") liveState).cameraReady =
      liveState.cameraReady ∧
    (performAnalysis (some "f") (.err "boom") liveState).permission =
      liveState.permission :=
  inference_failure_stops_analysis liveState "f" "boom" rfl rfl rfl rfl rfl
    ⟨fun _ => rfl, fun _ hi => nomatch hi⟩

theorem startAnalysisRun_eq_spec (cap : Option String) (inf : InferResult)
    {t : SessionState} (hitv : t.intervalRef = none) (hErr : t.error = none) :
    startAnalysisRun cap inf t = startAnalysisSpec cap inf t := by
  obtain ⟨sel, ana, loa, fb, err, cr, co, pm, ar, itv, tms, nid, cfa⟩ := t
  replace hitv : itv = none := hitv
  replace hErr : err = none := hErr
  subst hitv
  subst hErr
  simp only [startAnalysisRun, startAnalysisSpec, clearIntervalRef]
  split
  · rfl
  · rename_i hm
    exact loading_eta (perform_ref_false_loading rfl (by simpa using hm))

/-- C4: on a successful guard check (exercise selected, camera on, permission
granted, camera ready, component attached) and with no interval currently
installed (the Start button is only reachable when analysis is off), the
source `startAnalysis` coincides with the spec-modelled algorithm
`startAnalysisSpec` — clear feedback and error, set loading and analyzing, run
one awaited poll cycle, then install the recurring timer and clear loading
only if still analyzing — and the timer period constant is exactly 5000 ms. -/
theorem startAnalysis_success_matches_spec (s : SessionState)
    (cap : Option String) (inf : InferResult)
    (hsel : ¬s.selectedExercise = "") (hco : s.cameraOn = true)
    (hperm : s.permission = Permission.granted) (hready : s.cameraReady = true)
    (hfeed : s.cameraFeedAttached = true) (hitv : s.intervalRef = none) :
    startAnalysis cap inf s = startAnalysisSpec cap inf s ∧
      ANALYSIS_INTERVAL = 5000 := by
  refine ⟨?_, rfl⟩
  have hrun : startAnalysis cap inf s =
      startAnalysisRun cap inf { s with error := none } := by
    simp only [startAnalysis]
    rw [if_neg hsel, if_neg (by simp [hco]), if_neg (by simp [hperm]),
        if_neg (by simp [hready]), if_neg (by simp [hfeed])]
  rw [hrun, startAnalysisRun_eq_spec cap inf
    (show ({ s with error := none } : SessionState).intervalRef = none from hitv) rfl]
  obtain ⟨sel, ana, loa, fb, err, cr, co, pm, ar, itv, tms, nid, cfa⟩ := s
  rfl

/-- C4 witness: the successful start evaluated on the concrete ready state. -/
theorem startAnalysis_success_matches_spec_witness :
    startAnalysis (some "frame") (.ok demoVerdict) readyState =
      startAnalysisSpec (some "frame") (.ok demoVerdict) readyState ∧
      ANALYSIS_INTERVAL = 5000 :=
  startAnalysis_success_matches_spec readyState (some "frame") (.ok demoVerdict)
    (by decide) rfl rfl rfl rfl rfl

/-- C6: if the frame-source report handler receives `ready = false` or a
denied permission while analysis is live (in any reachable state), the same
synchronous handler invocation forces the camera off, cancels the interval,
and sets `analyzing` to false. -/
theorem camera_report_failure_stops_analysis (s : SessionState) (ready : Bool)
    (perm : Permission) (camErr : Option String) (h : Reachable s)
    (ha : s.analyzing = true)
    (hcond : ready = false ∨ perm = Permission.denied) :
    (handleCameraReady ready perm camErr s).cameraOn = false ∧
    (handleCameraReady ready perm camErr s).intervalRef = none ∧
    (handleCameraReady ready perm camErr s).timers = [] ∧
    (handleCameraReady ready perm camErr s).analyzing = false := by
  obtain ⟨hrm, hra, hia, hac⟩ := reachable_sessInv h
  have hco := hac ha
  have hc1 : ¬ready = true ∨ perm = Permission.denied := by
    rcases hcond with h0 | h0
    · exact Or.inl (by simp [h0])
    · exact Or.inr h0
  have hred : handleCameraReady ready perm camErr s =
      stopAnalysis { s with
                     cameraReady := ready
                     permission := perm
                     error := some (camErr.getD (if perm = Permission.denied
                       then deniedDefaultMsg else notAvailableMsg))
                     cameraOn := false } := by
    simp only [handleCameraReady]
    rw [if_pos hc1, if_pos (show s.cameraOn = true from hco)]
  rw [hred]
  exact ⟨by simp, by simp, stopAnalysis_timers hrm, rfl⟩

/-- C6 witness: a not-ready, permission-denied report delivered on the
concrete reachable mid-analysis demo state. -/
theorem camera_report_failure_stops_analysis_witness :
    (handleCameraReady false Permission.denied none demoState).cameraOn = false ∧
    (handleCameraReady false Permission.denied none demoState).intervalRef = none ∧
    (handleCameraReady false Permission.denied none demoState).timers = [] ∧
    (handleCameraReady false Permission.denied none demoState).analyzing = false :=
  camera_report_failure_stops_analysis demoState false Permission.denied none
    (reachable_applyEvents demoEvents Reachable.refl) (by decide) (Or.inl rfl)

/-- C8: in every reachable session state at most one poll timer is live, a
live timer implies `analyzing = true`, and once `analyzing` is false the
timer table is empty. -/
theorem single_poll_timer (s : SessionState) (h : Reachable s) :
    s.timers.length ≤ 1 ∧ (s.timers ≠ [] → s.analyzing = true) ∧
      (s.analyzing = false → s.timers = []) := by
  obtain ⟨hrm, hra, hia, hac⟩ := reachable_sessInv h
  cases hitv : s.intervalRef with
  | none =>
      have ht := hrm.1 hitv
      exact ⟨by simp [ht], fun hne => absurd ht hne, fun _ => ht⟩
  | some i =>
      have ht := hrm.2 i hitv
      have han : s.analyzing = true := hia (by simp [hitv])
      refine ⟨by simp [ht], fun _ => han, fun hf => ?_⟩
      rw [hf] at han
      cases han

/-- C8 witness: the concrete reachable demo state with its single live
5000 ms interval. -/
theorem single_poll_timer_witness :
    demoState.timers.length ≤ 1 ∧ (demoState.timers ≠ [] → demoState.analyzing = true) ∧
      (demoState.analyzing = false → demoState.timers = []) :=
  single_poll_timer demoState (reachable_applyEvents demoEvents Reachable.refl)

/-- C7: in every reachable camera state at most one capture handle is active
(at most one live track, each acquired stream having exactly one); releasing
stops every track of the held stream and nulls the ref; and acquisition with a
non-denied permission query always runs `getUserMedia` on the state in which
any held stream has first been released by `stopCamera`. -/
theorem single_capture_handle (c : CamState) (h : CamReachable c) :
    c.liveTracks.length ≤ 1 ∧
    (stopCamera c).liveTracks = [] ∧
    (stopCamera c).streamRef = none ∧
    (∀ permQ gum,
      (permPhase permQ { c with internalError := none }).permissionState ≠
        CamPerm.denied →
      startCamera permQ gum c =
        gumPhase gum (stopCamera (permPhase permQ { c with internalError := none }))) := by
  have hinv := camReachable_camInv h
  refine ⟨?_, stopCamera_liveTracks hinv, stopCamera_streamRef c, ?_⟩
  · cases hsr : c.streamRef with
    | none => simp [hinv.1 hsr]
    | some st => simp [(hinv.2 st hsr).2]
  · intro permQ gum hnd
    simp only [startCamera]
    rw [if_neg hnd]

/-- C7 witness: the concrete camera state holding one acquired stream. -/
theorem single_capture_handle_witness :
    demoCamState.liveTracks.length ≤ 1 ∧
    (stopCamera demoCamState).liveTracks = [] ∧
    (stopCamera demoCamState).streamRef = none :=
  have hx := single_capture_handle demoCamState
    (CamReachable.next (CamEvent.activate (some .granted) (.ok true true))
      CamReachable.refl)
  ⟨hx.1, hx.2.1, hx.2.2.1⟩

/-- C9: `captureFrame` is total at its interface: whenever the camera is
inactive, the stream is missing, the video has no frames yet, permission is
not granted, the video element is detached, the canvas or its context is
unavailable, or the draw/encode fails, it returns `none` instead of
throwing. -/
theorem captureFrame_none_on_failure (c : CamState) (vw : Nat)
    (ca ctx dr : Bool) (enc : String)
    (h : c.isActive = false ∨ c.streamRef = none ∨ vw = 0 ∨
         c.permissionState ≠ CamPerm.granted ∨ c.videoSrc = false ∨
         ca = false ∨ ctx = false ∨ dr = false) :
    captureFrame c vw ca ctx dr enc = none := by
  simp only [captureFrame]
  split_ifs with h1 h2 h3 h4 <;>
    first
      | rfl
      | (exfalso; rcases h with h | h | h | h | h | h | h | h <;> simp_all)

/-- C9 witness: capture on the inactive initial camera state returns `none`. -/
theorem captureFrame_none_on_failure_witness :
    captureFrame camInit 0 false false false "x" = none :=
  captureFrame_none_on_failure camInit 0 false false false "x" (Or.inl rfl)
